import Mathlib

/-!
Verification of the Codex instructions cache (src/lib/prompts/codex.ts).

The source is a single async function `getCodexInstructions` that serves an
instruction document from a three-tier cache: fresh local cache (within a
fifteen-minute window), a conditional GitHub fetch against the latest release
tag, and a fallback chain (stale cache, then a bundled default document).

We embed the function shallowly.  The ambient environment (clock readings,
filesystem contents, network responses, write outcomes) is a record `Env`;
running the function yields an `Except Unit String` (`error` = the returned
promise rejects) together with a `RunState` holding the final filesystem
contents and an ordered trace of observable events (network calls with their
request headers, cache writes, log lines).
-/

namespace Codex

/-- The persisted metadata record (`codex-instructions-meta.json`).  Fields are
`Option`s because the JSON is cast unchecked (`as CacheMetadata`) in the
source, so any field may be `null`/absent; `etag` is genuinely nullable even
in records the code itself writes (`response.headers.get` may return null). -/
structure CacheMetadata where
  etag : Option String
  tag : Option String
  lastChecked : Option Int
  url : String
deriving Repr, DecidableEq

/-- State of the cached artifact file: absent, present but a read throws,
or present with the given text. -/
inductive FileState where
  | absent
  | unreadable
  | content (text : String)
deriving Repr, DecidableEq

/-- State of the metadata file, after the read-and-JSON-parse layer: absent,
present but reading or parsing throws, or parsed into a record. -/
inductive MetaFileState where
  | absent
  | unreadable
  | parsed (m : CacheMetadata)
deriving Repr, DecidableEq

/-- Response of the GitHub releases index call.  `tagName = none` means
`response.json()` rejects or yields no usable tag. -/
structure RelResponse where
  status : Nat
  tagName : Option String
deriving Repr, DecidableEq

/-- `Response.ok` of the fetch API: status in the 200-class. -/
def RelResponse.ok (r : RelResponse) : Bool :=
  200 ≤ r.status && r.status < 300

/-- Response of the raw-content fetch.  `body = none` means
`response.text()` rejects; `etagHeader` is `response.headers.get` result. -/
structure FetchResponse where
  status : Nat
  body : Option String
  etagHeader : Option String
deriving Repr, DecidableEq

/-- `Response.ok` of the fetch API: status in the 200-class. -/
def FetchResponse.ok (r : FetchResponse) : Bool :=
  200 ≤ r.status && r.status < 300

/-- Observable events of one run, in order: the two kinds of network call
(the resource call records the `If-None-Match` header value sent, if any),
the two cache writes, and the three `console.error` log lines. -/
inductive Event where
  | releaseCall
  | resourceCall (url : String) (ifNoneMatch : Option String)
  | wroteCache (text : String)
  | wroteMeta (m : CacheMetadata)
  | logFetchFailed
  | logUsingCached
  | logUsingBundled
deriving Repr, DecidableEq

/-- Network events: the releases-index call and the resource fetch. -/
def Event.isNetwork : Event → Bool
  | .releaseCall => true
  | .resourceCall _ _ => true
  | _ => false

/-- Resource-fetch events only. -/
def Event.isResource : Event → Bool
  | .resourceCall _ _ => true
  | _ => false

/-- The environment one invocation runs in: the two `Date.now()` readings
(at the freshness check and at metadata-write time), initial filesystem
state, the bundled document (`none` = its read throws), the network
behavior (the resource response may depend on the `If-None-Match` header
sent; `none` = the fetch rejects), and outcomes of directory creation and
the two writes. -/
structure Env where
  nowCheck : Int
  nowWrite : Int
  metaFile : MetaFileState
  cacheFile : FileState
  bundled : Option String
  release : Option RelResponse
  fetchResp : Option String → Option FetchResponse
  cacheDirExists : Bool
  mkdirOk : Bool
  writeCacheOk : Bool
  writeMetaOk : Bool

/-- Mutable state threaded through a run: current contents of the two cache
files, plus the accumulated event trace. -/
structure RunState where
  cacheFile : FileState
  metaFile : MetaFileState
  events : List Event
deriving Repr

/-- `CACHE_TTL_MS = 15 * 60 * 1000`: the freshness window. -/
def CACHE_TTL_MS : Int := 15 * 60 * 1000

/-- The version-qualified raw-content URL built from the release tag. -/
def codexInstructionsURL (tag : String) : String :=
  "https://raw.githubusercontent.com/openai/codex/" ++ tag
    ++ "/codex-rs/core/gpt_5_codex_prompt.md"

/-- `existsSync` on the artifact file. -/
def FileState.existsSync : FileState → Bool
  | .absent => false
  | _ => true

/-- `existsSync` on the metadata file. -/
def MetaFileState.existsSync : MetaFileState → Bool
  | .absent => false
  | _ => true

/-- JavaScript truthiness of `cachedTimestamp : number | null`:
`null` and `0` are falsy. -/
def tsTruthy : Option Int → Bool
  | none => false
  | some t => t != 0

/-- JavaScript truthiness of `cachedETag : string | null`:
`null` and the empty string are falsy. -/
def strTruthy : Option String → Bool
  | none => false
  | some s => s != ""

/-- Reading and JSON-parsing the metadata file (lines 42-47 of the source):
absent file is skipped, a read or parse failure throws. -/
def loadMetadata : MetaFileState → Except Unit (Option CacheMetadata)
  | .absent => .ok none
  | .unreadable => .error ()
  | .parsed m => .ok (some m)

/-- The freshness guard of line 51:
`cachedTimestamp && (Date.now() - cachedTimestamp) < CACHE_TTL_MS && existsSync(CACHE_FILE)`. -/
def freshCheck (nowCheck : Int) (cachedTimestamp : Option Int)
    (cache : FileState) : Bool :=
  tsTruthy cachedTimestamp
    && decide (nowCheck - cachedTimestamp.getD 0 < CACHE_TTL_MS)
    && cache.existsSync

/-- `getLatestReleaseTag` (lines 20-25): fetch the releases index, throw on a
rejected fetch, a non-ok status, or an unparseable body. -/
def resolveLatest (env : Env) : Except Unit String :=
  match env.release with
  | none => .error ()
  | some r =>
    if !r.ok then .error ()
    else
      match r.tagName with
      | none => .error ()
      | some t => .ok t

/-- The 200-class branch (lines 81-104): read the body, create the cache
directory if needed, write artifact then metadata, return the body.  Any
step may throw. -/
def handleFresh200 (env : Env) (st : RunState) (latestTag url : String)
    (resp : FetchResponse) : Except Unit String × RunState :=
  match resp.body with
  | none => (.error (), st)
  | some instructions =>
    if !env.cacheDirExists && !env.mkdirOk then (.error (), st)
    else if !env.writeCacheOk then (.error (), st)
    else
      let st1 : RunState := { st with
        cacheFile := FileState.content instructions
        events := st.events ++ [Event.wroteCache instructions] }
      if !env.writeMetaOk then (.error (), st1)
      else
        let newMeta : CacheMetadata :=
          { etag := resp.etagHeader, tag := some latestTag,
            lastChecked := some env.nowWrite, url := url }
        let st2 : RunState := { st1 with
          metaFile := MetaFileState.parsed newMeta
          events := st1.events ++ [Event.wroteMeta newMeta] }
        (.ok instructions, st2)

/-- Dispatch on the resource response (lines 72-106): the 304 branch returns
the cached file when it exists (falling through when it does not), the
200-class branch stores and returns, anything else throws `HTTP status`. -/
def handleResponse (env : Env) (st : RunState) (latestTag url : String)
    (resp : FetchResponse) : Except Unit String × RunState :=
  if resp.status == 304 && st.cacheFile.existsSync then
    match st.cacheFile with
    | .content s => (.ok s, st)
    | _ => (.error (), st)
  else if resp.ok then handleFresh200 env st latestTag url resp
  else (.error (), st)

/-- The `If-None-Match` value actually sent (lines 59-68): the stored
validator is discarded when the cached tag differs from the latest tag, and
the header is only set when the surviving validator is truthy. -/
def validatorSent (cachedETag cachedTag : Option String) (latestTag : String) :
    Option String :=
  let etag1 : Option String :=
    if cachedTag = some latestTag then cachedETag else none
  if strTruthy etag1 then etag1 else none

/-- Lines 57-70: build the version-qualified URL, clear the validator when
the tag changed, send the conditional request. -/
def revalidate (env : Env) (st : RunState) (cachedETag cachedTag : Option String)
    (latestTag : String) : Except Unit String × RunState :=
  let url := codexInstructionsURL latestTag
  let hdr : Option String := validatorSent cachedETag cachedTag latestTag
  let st1 : RunState := { st with events := st.events ++ [Event.resourceCall url hdr] }
  match env.fetchResp hdr with
  | none => (.error (), st1)
  | some resp => handleResponse env st1 latestTag url resp

/-- Lines 49-106 after the metadata load: freshness guard, then version
resolution, then the conditional fetch. -/
def afterMeta (env : Env) (st : RunState) (metaOpt : Option CacheMetadata) :
    Except Unit String × RunState :=
  let cachedETag := metaOpt.bind CacheMetadata.etag
  let cachedTag := metaOpt.bind CacheMetadata.tag
  let cachedTimestamp := metaOpt.bind CacheMetadata.lastChecked
  if freshCheck env.nowCheck cachedTimestamp st.cacheFile then
    match st.cacheFile with
    | .content s => (.ok s, st)
    | _ => (.error (), st)
  else
    let st1 : RunState := { st with events := st.events ++ [Event.releaseCall] }
    match resolveLatest env with
    | .error _ => (.error (), st1)
    | .ok latestTag => revalidate env st1 cachedETag cachedTag latestTag

/-- The body of the `try` block (lines 36-106). -/
def runTry (env : Env) : Except Unit String × RunState :=
  let st : RunState := ⟨env.cacheFile, env.metaFile, []⟩
  match loadMetadata env.metaFile with
  | .error _ => (.error (), st)
  | .ok metaOpt => afterMeta env st metaOpt

/-- The `catch` block (lines 107-123): log the failure, return the cached
file when it exists (this read is unguarded: if it throws, the promise
rejects), else read the bundled document (also unguarded). -/
def catchHandler (env : Env) (st : RunState) : Except Unit String × RunState :=
  let st1 : RunState := { st with events := st.events ++ [Event.logFetchFailed] }
  match st1.cacheFile with
  | .content s =>
    (.ok s, { st1 with events := st1.events ++ [Event.logUsingCached] })
  | .unreadable =>
    (.error (), { st1 with events := st1.events ++ [Event.logUsingCached] })
  | .absent =>
    let st2 : RunState := { st1 with events := st1.events ++ [Event.logUsingBundled] }
    match env.bundled with
    | some s => (.ok s, st2)
    | none => (.error (), st2)

/-- `getCodexInstructions` (lines 35-124): the `try` body with every thrown
error routed to the `catch` handler. -/
def getCodexInstructions (env : Env) : Except Unit String × RunState :=
  match runTry env with
  | (.ok s, st) => (.ok s, st)
  | (.error _, st) => catchHandler env st

/-- The cached tag as the orchestrator sees it: the `tag` field when the
metadata file parses, `null` otherwise. -/
def metaTagOf (env : Env) : Option String :=
  match env.metaFile with
  | .parsed m => m.tag
  | _ => none

/-- The cached validator as the orchestrator sees it. -/
def metaEtagOf (env : Env) : Option String :=
  match env.metaFile with
  | .parsed m => m.etag
  | _ => none

/-- The cached timestamp as the orchestrator sees it. -/
def metaTimeOf (env : Env) : Option Int :=
  match env.metaFile with
  | .parsed m => m.lastChecked
  | _ => none

/-- The metadata record the `try` body works with, as an `Option`. -/
def metaOptOf (env : Env) : Option CacheMetadata :=
  match env.metaFile with
  | .parsed m => some m
  | _ => none

/-- The freshness guard of one invocation, phrased on the environment. -/
def freshOf (env : Env) : Bool :=
  freshCheck env.nowCheck (metaTimeOf env) env.cacheFile

/-- The validator header one invocation sends for a given latest tag. -/
def hdrOf (env : Env) (tg : String) : Option String :=
  validatorSent (metaEtagOf env) (metaTagOf env) tg

/-- The metadata record a successful 200-class fetch persists. -/
def newMetaOf (env : Env) (tg : String) (resp : FetchResponse) : CacheMetadata :=
  ⟨resp.etagHeader, some tg, some env.nowWrite, codexInstructionsURL tg⟩

/-- A baseline test environment: empty cache, readable bundled document
`B`, network down, clock at small positive times, all writes succeeding. -/
def envBase : Env where
  nowCheck := 1000
  nowWrite := 2000
  metaFile := .absent
  cacheFile := .absent
  bundled := some "B"
  release := none
  fetchResp := fun _ => none
  cacheDirExists := true
  mkdirOk := true
  writeCacheOk := true
  writeMetaOk := true

/-- Network down, no cache, and the bundled document itself unreadable. -/
def envNoFallbacks : Env :=
  { envBase with bundled := none }

/-- Metadata persisted with `lastChecked = 0` (the epoch), clock just after
the epoch, artifact cached: the window condition holds arithmetically. -/
def envEpochMeta : Env :=
  { envBase with
    nowCheck := 0
    metaFile := .parsed ⟨none, some "v1", some 0, "u"⟩
    cacheFile := .content "X" }

/-- Fresh metadata (checked 500 ms before a clock of 1000 ms) and a cached
artifact, with the network down. -/
def envFreshCache : Env :=
  { envBase with
    metaFile := .parsed ⟨some "e1", some "v2", some 500, "u"⟩
    cacheFile := .content "X" }

/-- Stale metadata and a cached artifact, network down. -/
def envStaleNoNet : Env :=
  { envBase with
    nowCheck := 1000000000
    metaFile := .parsed ⟨some "e1", some "v2", some 500, "u"⟩
    cacheFile := .content "X" }

/-- Stale metadata recorded under tag `v1` with a stored validator; the
upstream index now answers `v2` and the resource fetch serves new content. -/
def envTagChange : Env :=
  { envBase with
    nowCheck := 1000000000
    metaFile := .parsed ⟨some "e1", some "v1", some 500, "u"⟩
    cacheFile := .content "X"
    release := some ⟨200, some "v2"⟩
    fetchResp := fun _ => some ⟨200, some "Y", some "e2"⟩ }

/-- Stale metadata under the still-current tag `v2`; the conditional fetch
answers not-modified. -/
def envNotModified : Env :=
  { envBase with
    nowCheck := 1000000000
    metaFile := .parsed ⟨some "e1", some "v2", some 500, "u"⟩
    cacheFile := .content "X"
    release := some ⟨200, some "v2"⟩
    fetchResp := fun _ => some ⟨304, none, none⟩ }

/-- Not-modified answered while the artifact file is missing. -/
def envNotModifiedEmpty : Env :=
  { envNotModified with cacheFile := .absent }

/-- Unreadable (unparseable) metadata file with a cached artifact, while the
network is fully available and would serve new content `Y`. -/
def envBadMeta : Env :=
  { envBase with
    metaFile := .unreadable
    cacheFile := .content "X"
    release := some ⟨200, some "v2"⟩
    fetchResp := fun _ => some ⟨200, some "Y", some "e2"⟩ }

/-- Unreadable metadata file and no cached artifact. -/
def envBadMetaNoCache : Env :=
  { envBadMeta with cacheFile := .absent }

/-- The state `envTagChange` persists, served as the environment of an
immediately following call (clock 2500 ms, within the window of the
write-time clock 2000 ms). -/
def envAfterTagChange : Env :=
  { envBase with
    nowCheck := 2500
    metaFile := .parsed ⟨some "e2", some "v2", some 2000, codexInstructionsURL "v2"⟩
    cacheFile := .content "Y" }

/-- Metadata whose `lastChecked` lies far in the future of the clock. -/
def envFuture : Env :=
  { envBase with
    nowCheck := 100
    metaFile := .parsed ⟨some "e1", some "v2", some 99999999, "u"⟩
    cacheFile := .content "X" }

/-- Symbolic execution of the 200-class branch: it throws leaving the state
alone, throws after the artifact write when the metadata write fails, or
performs both writes and returns the body. -/
theorem handleFresh200_shape (env : Env) (st : RunState) (t u : String)
    (r : FetchResponse) :
    handleFresh200 env st t u r = (.error (), st) ∨
    (env.writeMetaOk = false ∧ ∃ s, r.body = some s ∧
      handleFresh200 env st t u r =
        (.error (), { st with
          cacheFile := FileState.content s
          events := st.events ++ [Event.wroteCache s] })) ∨
    (env.writeMetaOk = true ∧ ∃ s, r.body = some s ∧
      handleFresh200 env st t u r =
        (.ok s, { st with
          cacheFile := FileState.content s
          metaFile := MetaFileState.parsed ⟨r.etagHeader, some t, some env.nowWrite, u⟩
          events := st.events ++ [Event.wroteCache s,
            Event.wroteMeta ⟨r.etagHeader, some t, some env.nowWrite, u⟩] })) := by
  unfold handleFresh200
  rcases hb : r.body with _ | s
  · exact Or.inl rfl
  · by_cases h1 : (!env.cacheDirExists && !env.mkdirOk) = true
    · simp [h1]
    · by_cases h2 : (!env.writeCacheOk) = true
      · simp [h1, h2]
      · by_cases h3 : (!env.writeMetaOk) = true
        · refine Or.inr (Or.inl ⟨by simpa using h3, s, rfl, ?_⟩)
          simp [h1, h2, h3]
        · refine Or.inr (Or.inr ⟨by simpa using h3, s, rfl, ?_⟩)
          simp [h1, h2, h3]

/-- Symbolic execution of the response dispatch: serve the cached file on a
not-modified response, throw leaving the state alone, or enter the 200-class
branch (only when the status is 200-class). -/
theorem handleResponse_shape (env : Env) (st : RunState) (t u : String)
    (r : FetchResponse) :
    (∃ s, st.cacheFile = FileState.content s ∧
      handleResponse env st t u r = (.ok s, st)) ∨
    handleResponse env st t u r = (.error (), st) ∨
    (r.ok = true ∧ handleResponse env st t u r = handleFresh200 env st t u r) := by
  unfold handleResponse
  by_cases h1 : (r.status == 304 && st.cacheFile.existsSync) = true
  · rcases hc : st.cacheFile with _ | _ | s
    all_goals rw [hc] at h1
    · simp [FileState.existsSync] at h1
    · refine Or.inr (Or.inl ?_)
      simp [h1]
    · refine Or.inl ⟨s, rfl, ?_⟩
      simp [h1]
  · rw [Bool.not_eq_true] at h1
    by_cases h2 : r.ok = true
    · refine Or.inr (Or.inr ⟨h2, ?_⟩)
      simp [h1, h2]
    · refine Or.inr (Or.inl ?_)
      rw [Bool.not_eq_true] at h2
      simp [h1, h2]

/-- Symbolic execution of the conditional fetch: the resource call is logged
with the surviving validator; a rejected fetch throws, otherwise the
response dispatch runs. -/
theorem revalidate_shape (env : Env) (st : RunState)
    (cachedETag cachedTag : Option String) (latestTag : String) :
    (env.fetchResp (validatorSent cachedETag cachedTag latestTag) = none ∧
      revalidate env st cachedETag cachedTag latestTag =
        (.error (), { st with events := st.events ++
          [Event.resourceCall (codexInstructionsURL latestTag)
            (validatorSent cachedETag cachedTag latestTag)] })) ∨
    (∃ resp, env.fetchResp (validatorSent cachedETag cachedTag latestTag) = some resp ∧
      revalidate env st cachedETag cachedTag latestTag =
        handleResponse env
          { st with events := st.events ++
            [Event.resourceCall (codexInstructionsURL latestTag)
              (validatorSent cachedETag cachedTag latestTag)] }
          latestTag (codexInstructionsURL latestTag) resp) := by
  unfold revalidate
  rcases hf : env.fetchResp (validatorSent cachedETag cachedTag latestTag) with _ | resp
  · exact Or.inl ⟨rfl, by simp [hf]⟩
  · exact Or.inr ⟨resp, rfl, by simp [hf]⟩

/-- Symbolic execution after the metadata load: either the freshness guard
fires (serving or throwing on the cached file, no events), or the release
call is logged and resolution either fails or hands over to the fetch. -/
theorem afterMeta_shape (env : Env) (st : RunState) (metaOpt : Option CacheMetadata) :
    (freshCheck env.nowCheck (metaOpt.bind CacheMetadata.lastChecked) st.cacheFile = true ∧
      ((∃ s, st.cacheFile = FileState.content s ∧
        afterMeta env st metaOpt = (.ok s, st)) ∨
       (st.cacheFile = FileState.unreadable ∧
        afterMeta env st metaOpt = (.error (), st)))) ∨
    (freshCheck env.nowCheck (metaOpt.bind CacheMetadata.lastChecked) st.cacheFile = false ∧
      ((resolveLatest env = .error () ∧
        afterMeta env st metaOpt =
          (.error (), { st with events := st.events ++ [Event.releaseCall] })) ∨
       (∃ tg, resolveLatest env = .ok tg ∧
        afterMeta env st metaOpt =
          revalidate env { st with events := st.events ++ [Event.releaseCall] }
            (metaOpt.bind CacheMetadata.etag) (metaOpt.bind CacheMetadata.tag) tg))) := by
  unfold afterMeta
  by_cases h1 : freshCheck env.nowCheck (metaOpt.bind CacheMetadata.lastChecked)
      st.cacheFile = true
  · refine Or.inl ⟨h1, ?_⟩
    rcases hc : st.cacheFile with _ | _ | s
    all_goals rw [hc] at h1
    · simp [freshCheck, FileState.existsSync] at h1
    · refine Or.inr ⟨rfl, ?_⟩
      simp [h1]
    · refine Or.inl ⟨s, rfl, ?_⟩
      simp [h1]
  · rw [Bool.not_eq_true] at h1
    refine Or.inr ⟨h1, ?_⟩
    rcases hr : resolveLatest env with e | tg
    · cases e
      exact Or.inl ⟨rfl, by simp [h1, hr]⟩
    · exact Or.inr ⟨tg, rfl, by simp [h1, hr]⟩

/-- Symbolic execution of the whole `try` body, in terms of the initial
environment. -/
theorem runTry_shape (env : Env) :
    (env.metaFile = MetaFileState.unreadable ∧
      runTry env = (.error (), ⟨env.cacheFile, env.metaFile, []⟩)) ∨
    (env.metaFile ≠ MetaFileState.unreadable ∧
      runTry env = afterMeta env ⟨env.cacheFile, env.metaFile, []⟩
        (match env.metaFile with
         | .parsed m => some m
         | _ => none)) := by
  unfold runTry loadMetadata
  rcases hm : env.metaFile with _ | _ | m
  · exact Or.inr ⟨by simp [hm], by simp [hm]⟩
  · exact Or.inl ⟨rfl, by simp [hm]⟩
  · exact Or.inr ⟨by simp [hm], by simp [hm]⟩

theorem metaOptOf_lastChecked (env : Env) :
    (metaOptOf env).bind CacheMetadata.lastChecked = metaTimeOf env := by
  unfold metaOptOf metaTimeOf
  cases env.metaFile <;> rfl

theorem metaOptOf_etag (env : Env) :
    (metaOptOf env).bind CacheMetadata.etag = metaEtagOf env := by
  unfold metaOptOf metaEtagOf
  cases env.metaFile <;> rfl

theorem metaOptOf_tag (env : Env) :
    (metaOptOf env).bind CacheMetadata.tag = metaTagOf env := by
  unfold metaOptOf metaTagOf
  cases env.metaFile <;> rfl

/-- Complete symbolic execution of the `try` body: one leaf per terminal
branch of `getCodexInstructions` before the `catch` handler, each recording
the environment facts that drove it there, the final filesystem state, and
the full ordered event trace. -/
theorem runTry_cases (env : Env) :
    (env.metaFile = MetaFileState.unreadable ∧
      runTry env = (.error (), ⟨env.cacheFile, env.metaFile, []⟩)) ∨
    (freshOf env = true ∧ ∃ s, env.cacheFile = FileState.content s ∧
      runTry env = (.ok s, ⟨env.cacheFile, env.metaFile, []⟩)) ∨
    (freshOf env = true ∧ env.cacheFile = FileState.unreadable ∧
      runTry env = (.error (), ⟨env.cacheFile, env.metaFile, []⟩)) ∨
    (env.metaFile ≠ MetaFileState.unreadable ∧ freshOf env = false ∧
      resolveLatest env = .error () ∧
      runTry env = (.error (), ⟨env.cacheFile, env.metaFile, [Event.releaseCall]⟩)) ∨
    (∃ tg, freshOf env = false ∧ resolveLatest env = .ok tg ∧
      env.fetchResp (hdrOf env tg) = none ∧
      runTry env = (.error (), ⟨env.cacheFile, env.metaFile,
        [Event.releaseCall,
         Event.resourceCall (codexInstructionsURL tg) (hdrOf env tg)]⟩)) ∨
    (∃ tg resp s, freshOf env = false ∧ resolveLatest env = .ok tg ∧
      env.fetchResp (hdrOf env tg) = some resp ∧
      env.cacheFile = FileState.content s ∧
      runTry env = (.ok s, ⟨env.cacheFile, env.metaFile,
        [Event.releaseCall,
         Event.resourceCall (codexInstructionsURL tg) (hdrOf env tg)]⟩)) ∨
    (∃ tg resp, freshOf env = false ∧ resolveLatest env = .ok tg ∧
      env.fetchResp (hdrOf env tg) = some resp ∧
      runTry env = (.error (), ⟨env.cacheFile, env.metaFile,
        [Event.releaseCall,
         Event.resourceCall (codexInstructionsURL tg) (hdrOf env tg)]⟩)) ∨
    (∃ tg resp s, freshOf env = false ∧ resolveLatest env = .ok tg ∧
      env.fetchResp (hdrOf env tg) = some resp ∧ resp.ok = true ∧
      resp.body = some s ∧ env.writeMetaOk = false ∧
      runTry env = (.error (), ⟨FileState.content s, env.metaFile,
        [Event.releaseCall,
         Event.resourceCall (codexInstructionsURL tg) (hdrOf env tg),
         Event.wroteCache s]⟩)) ∨
    (∃ tg resp s, freshOf env = false ∧ resolveLatest env = .ok tg ∧
      env.fetchResp (hdrOf env tg) = some resp ∧ resp.ok = true ∧
      resp.body = some s ∧ env.writeMetaOk = true ∧
      runTry env = (.ok s, ⟨FileState.content s,
        MetaFileState.parsed (newMetaOf env tg resp),
        [Event.releaseCall,
         Event.resourceCall (codexInstructionsURL tg) (hdrOf env tg),
         Event.wroteCache s,
         Event.wroteMeta (newMetaOf env tg resp)]⟩)) := by
  rcases runTry_shape env with ⟨hm, hrun⟩ | ⟨hm, hrun⟩
  · exact Or.inl ⟨hm, hrun⟩
  · rw [show (match env.metaFile with
        | MetaFileState.parsed m => some m
        | _ => none) = metaOptOf env from rfl] at hrun
    rcases afterMeta_shape env ⟨env.cacheFile, env.metaFile, []⟩ (metaOptOf env) with
      ⟨hfr, hserve | ⟨hunr, hserve⟩⟩ | ⟨hfr, hres⟩
    · rw [metaOptOf_lastChecked] at hfr
      rcases hserve with ⟨s, hs, hres⟩
      exact Or.inr (Or.inl ⟨hfr, s, hs, by rw [hrun, hres]⟩)
    · rw [metaOptOf_lastChecked] at hfr
      exact Or.inr (Or.inr (Or.inl ⟨hfr, hunr, by rw [hrun, hserve]⟩))
    · rw [metaOptOf_lastChecked] at hfr
      rcases hres with ⟨hrl, hres⟩ | ⟨tg, hrl, hres⟩
      · refine Or.inr (Or.inr (Or.inr (Or.inl ⟨hm, hfr, hrl, ?_⟩)))
        rw [hrun, hres]
        simp
      · rw [metaOptOf_etag, metaOptOf_tag] at hres
        rcases revalidate_shape env
            ⟨env.cacheFile, env.metaFile, [] ++ [Event.releaseCall]⟩
            (metaEtagOf env) (metaTagOf env) tg with ⟨hf, hrev⟩ | ⟨resp, hf, hrev⟩
        · refine Or.inr (Or.inr (Or.inr (Or.inr (Or.inl ⟨tg, hfr, hrl, hf, ?_⟩))))
          rw [hrun, hres, hrev]
          simp [hdrOf]
        · rcases handleResponse_shape env
              ⟨env.cacheFile, env.metaFile,
                ([] ++ [Event.releaseCall]) ++
                  [Event.resourceCall (codexInstructionsURL tg)
                    (validatorSent (metaEtagOf env) (metaTagOf env) tg)]⟩
              tg (codexInstructionsURL tg) resp with
            ⟨s, hs, hhr⟩ | hhr | ⟨hok, hhr⟩
          · refine Or.inr (Or.inr (Or.inr (Or.inr (Or.inr (Or.inl
              ⟨tg, resp, s, hfr, hrl, hf, hs, ?_⟩)))))
            rw [hrun, hres, hrev, hhr]
            simp [hdrOf]
          · refine Or.inr (Or.inr (Or.inr (Or.inr (Or.inr (Or.inr (Or.inl
              ⟨tg, resp, hfr, hrl, hf, ?_⟩))))))
            rw [hrun, hres, hrev, hhr]
            simp [hdrOf]
          · rcases handleFresh200_shape env
                ⟨env.cacheFile, env.metaFile,
                  ([] ++ [Event.releaseCall]) ++
                    [Event.resourceCall (codexInstructionsURL tg)
                      (validatorSent (metaEtagOf env) (metaTagOf env) tg)]⟩
                tg (codexInstructionsURL tg) resp with
              h200 | ⟨hw, s, hbody, h200⟩ | ⟨hw, s, hbody, h200⟩
            · refine Or.inr (Or.inr (Or.inr (Or.inr (Or.inr (Or.inr (Or.inl
                ⟨tg, resp, hfr, hrl, hf, ?_⟩))))))
              rw [hrun, hres, hrev, hhr, h200]
              simp [hdrOf]
            · refine Or.inr (Or.inr (Or.inr (Or.inr (Or.inr (Or.inr (Or.inr (Or.inl
                ⟨tg, resp, s, hfr, hrl, hf, hok, hbody, hw, ?_⟩)))))))
              rw [hrun, hres, hrev, hhr, h200]
              simp [hdrOf]
            · refine Or.inr (Or.inr (Or.inr (Or.inr (Or.inr (Or.inr (Or.inr (Or.inr
                ⟨tg, resp, s, hfr, hrl, hf, hok, hbody, hw, ?_⟩)))))))
              rw [hrun, hres, hrev, hhr, h200]
              simp [hdrOf, newMetaOf]

theorem getCodex_of_ok {env : Env} {s : String} {st : RunState}
    (h : runTry env = (Except.ok s, st)) : getCodexInstructions env = (Except.ok s, st) := by
  unfold getCodexInstructions
  rw [h]

theorem getCodex_of_error {env : Env} {st : RunState}
    (h : runTry env = (Except.error (), st)) :
    getCodexInstructions env = catchHandler env st := by
  unfold getCodexInstructions
  rw [h]

theorem catchHandler_content {env : Env} {st : RunState} {s : String}
    (h : st.cacheFile = FileState.content s) :
    catchHandler env st = (Except.ok s, { st with
      events := st.events ++ [Event.logFetchFailed, Event.logUsingCached] }) := by
  unfold catchHandler
  simp [h]

theorem catchHandler_unreadable {env : Env} {st : RunState}
    (h : st.cacheFile = FileState.unreadable) :
    catchHandler env st = (Except.error (), { st with
      events := st.events ++ [Event.logFetchFailed, Event.logUsingCached] }) := by
  unfold catchHandler
  simp [h]

theorem catchHandler_bundled {env : Env} {st : RunState} {b : String}
    (h : st.cacheFile = FileState.absent) (hb : env.bundled = some b) :
    catchHandler env st = (Except.ok b, { st with
      events := st.events ++ [Event.logFetchFailed, Event.logUsingBundled] }) := by
  unfold catchHandler
  simp [h, hb]

theorem catchHandler_noFallback {env : Env} {st : RunState}
    (h : st.cacheFile = FileState.absent) (hb : env.bundled = none) :
    catchHandler env st = (Except.error (), { st with
      events := st.events ++ [Event.logFetchFailed, Event.logUsingBundled] }) := by
  unfold catchHandler
  simp [h, hb]

theorem catchHandler_metaFile (env : Env) (st : RunState) :
    (catchHandler env st).2.metaFile = st.metaFile := by
  unfold catchHandler
  rcases hc : st.cacheFile with _ | _ | s
  · cases hb : env.bundled <;> simp [hc, hb]
  · simp [hc]
  · simp [hc]

theorem catchHandler_filter (env : Env) (st : RunState) (p : Event → Bool)
    (h1 : p Event.logFetchFailed = false) (h2 : p Event.logUsingCached = false)
    (h3 : p Event.logUsingBundled = false) :
    ((catchHandler env st).2.events).filter p = st.events.filter p := by
  unfold catchHandler
  rcases hc : st.cacheFile with _ | _ | s
  · cases hb : env.bundled <;> simp [hc, hb, List.filter_append, h1, h2, h3]
  · simp [hc, List.filter_append, h1, h2]
  · simp [hc, List.filter_append, h1, h2]

theorem mem_catchHandler_events {env : Env} {st : RunState} {e : Event}
    (he : e ∈ (catchHandler env st).2.events) :
    e ∈ st.events ∨ e = Event.logFetchFailed ∨ e = Event.logUsingCached ∨
      e = Event.logUsingBundled := by
  unfold catchHandler at he
  rcases hc : st.cacheFile with _ | _ | s
  all_goals rw [hc] at he
  · rcases hb : env.bundled with _ | b
    all_goals rw [hb] at he
    all_goals simp at he
    all_goals tauto
  · simp at he
    tauto
  · simp at he
    tauto

theorem resolveLatest_error_of_fail {env : Env}
    (hfail : env.release = none ∨ ∃ r, env.release = some r ∧ r.ok = false) :
    resolveLatest env = .error () := by
  unfold resolveLatest
  rcases hfail with h | ⟨r, h, hok⟩
  · rw [h]
  · rw [h]
    simp [hok]

theorem validatorSent_none {cachedETag cachedTag : Option String} {latestTag : String}
    (h : cachedTag ≠ some latestTag) :
    validatorSent cachedETag cachedTag latestTag = none := by
  unfold validatorSent
  simp [h, strTruthy]

theorem FetchResponse.ok_false_of_304 {r : FetchResponse} (h : r.status = 304) :
    r.ok = false := by
  unfold FetchResponse.ok
  rw [h]
  rfl

/-- Shared fresh-path lemma: nonzero cached timestamp within the window plus
a readable cached artifact short-circuit the run before any network event. -/
theorem freshServe (env : Env) (m : CacheMetadata) (t : Int) (s : String)
    (hm : env.metaFile = MetaFileState.parsed m) (ht : m.lastChecked = some t)
    (h0 : t ≠ 0) (hw : env.nowCheck - t < CACHE_TTL_MS)
    (hc : env.cacheFile = FileState.content s) :
    (getCodexInstructions env).1 = Except.ok s ∧
    (getCodexInstructions env).2.events.filter Event.isNetwork = [] := by
  have hfresh : freshOf env = true := by
    unfold freshOf freshCheck metaTimeOf
    rw [hm]
    simp [tsTruthy, FileState.existsSync, ht, h0, hw, hc]
  rcases runTry_cases env with
    ⟨h1, _⟩ |
    ⟨_, s', hs', hrun⟩ |
    ⟨_, hunr, _⟩ |
    ⟨_, hfr, _, _⟩ |
    ⟨tg, hfr, _, _, _⟩ |
    ⟨tg, resp, s', hfr, _, _, _, _⟩ |
    ⟨tg, resp, hfr, _, _, _⟩ |
    ⟨tg, resp, s', hfr, _, _, _, _, _, _⟩ |
    ⟨tg, resp, s', hfr, _, _, _, _, _, _⟩
  · simp [hm] at h1
  · have hss : s = s' := by
      have h2 := hc.symm.trans hs'
      injection h2
    subst hss
    rw [getCodex_of_ok hrun]
    exact ⟨rfl, rfl⟩
  · simp [hc] at hunr
  all_goals simp [hfresh] at hfr

/-- Claim C2 (corrected, counterexample): a metadata record persisted with
`lastCheckedTime = 0` and a clock just after the epoch satisfies the claim's
premise (the record's age is below the freshness window and the artifact
store holds content), yet the run still performs a network call, because
JavaScript truthiness treats the timestamp `0` as absent. -/
theorem freshCache_epochTimestamp_callsNetwork :
    envEpochMeta.metaFile = MetaFileState.parsed ⟨none, some "v1", some 0, "u"⟩ ∧
    envEpochMeta.nowCheck - 0 < CACHE_TTL_MS ∧
    envEpochMeta.cacheFile = FileState.content "X" ∧
    Event.releaseCall ∈ (getCodexInstructions envEpochMeta).2.events := by
  refine ⟨rfl, by decide, rfl, ?_⟩
  have h : (getCodexInstructions envEpochMeta).2.events =
      [Event.releaseCall, Event.logFetchFailed, Event.logUsingCached] := rfl
  rw [h]
  simp

/-- Claim C2 (corrected): for every cached metadata record whose
`lastCheckedTime` is nonzero and less than `FRESHNESS_WINDOW` before now,
whenever the artifact store also holds content, `getCodexInstructions()`
performs zero network calls and returns the stored artifact text verbatim.
(The original claim is false only for the degenerate timestamp `0`, which
JavaScript truthiness treats as missing.) -/
theorem freshCache_noNetwork (env : Env) (m : CacheMetadata) (t : Int) (s : String)
    (hm : env.metaFile = MetaFileState.parsed m) (ht : m.lastChecked = some t)
    (h0 : t ≠ 0) (hw : env.nowCheck - t < CACHE_TTL_MS)
    (hc : env.cacheFile = FileState.content s) :
    (getCodexInstructions env).1 = Except.ok s ∧
    (getCodexInstructions env).2.events.filter Event.isNetwork = [] :=
  freshServe env m t s hm ht h0 hw hc

/-- Witness for `freshCache_noNetwork` at a concrete fresh environment. -/
theorem freshCache_noNetwork_witness :
    (getCodexInstructions envFreshCache).1 = Except.ok "X" ∧
    (getCodexInstructions envFreshCache).2.events.filter Event.isNetwork = [] :=
  freshCache_noNetwork envFreshCache ⟨some "e1", some "v2", some 500, "u"⟩ 500 "X"
    rfl rfl (by decide) (by decide) rfl

/-- Claim C10 (confirmed): for every persisted `lastCheckedTime` lying in
the future of the current clock (a nonnegative epoch instant), the freshness
check passes — now minus `lastCheckedTime` is negative, hence below the
window — so the cached artifact is served without any network contact
whenever the artifact store holds content. -/
theorem futureTimestamp_servesCache (env : Env) (m : CacheMetadata) (t : Int)
    (s : String) (hm : env.metaFile = MetaFileState.parsed m)
    (ht : m.lastChecked = some t) (hnow : 0 ≤ env.nowCheck)
    (hfut : env.nowCheck < t) (hc : env.cacheFile = FileState.content s) :
    (getCodexInstructions env).1 = Except.ok s ∧
    (getCodexInstructions env).2.events.filter Event.isNetwork = [] := by
  have h0 : t ≠ 0 := by omega
  have hw : env.nowCheck - t < CACHE_TTL_MS := by
    have hpos : (0:Int) < CACHE_TTL_MS := by decide
    omega
  exact freshServe env m t s hm ht h0 hw hc

/-- Witness for `futureTimestamp_servesCache` at a concrete environment
whose cached timestamp lies far in the clock's future. -/
theorem futureTimestamp_servesCache_witness :
    (getCodexInstructions envFuture).1 = Except.ok "X" ∧
    (getCodexInstructions envFuture).2.events.filter Event.isNetwork = [] :=
  futureTimestamp_servesCache envFuture ⟨some "e1", some "v2", some 99999999, "u"⟩
    99999999 "X" rfl rfl (by decide) (by decide) rfl

/-- Claim C9 (confirmed): any content persisted by a successful fresh (200)
response — witnessed by its metadata write in the first run's trace — is
returned verbatim, with zero network calls, by an immediately following call
that sees the persisted state within the freshness window (the write-time
clock being a positive epoch instant). -/
theorem roundTrip (env1 env2 : Env) (m : CacheMetadata) (c : String)
    (h1 : (getCodexInstructions env1).1 = Except.ok c)
    (hm : Event.wroteMeta m ∈ (getCodexInstructions env1).2.events)
    (h2meta : env2.metaFile = (getCodexInstructions env1).2.metaFile)
    (h2cache : env2.cacheFile = (getCodexInstructions env1).2.cacheFile)
    (hpos : 0 < env1.nowWrite)
    (hwin : env2.nowCheck - env1.nowWrite < CACHE_TTL_MS) :
    (getCodexInstructions env2).1 = Except.ok c ∧
    (getCodexInstructions env2).2.events.filter Event.isNetwork = [] := by
  rcases runTry_cases env1 with
    ⟨_, hrun⟩ |
    ⟨_, s', _, hrun⟩ |
    ⟨_, _, hrun⟩ |
    ⟨_, _, _, hrun⟩ |
    ⟨tg, _, _, _, hrun⟩ |
    ⟨tg, resp, s', _, _, _, _, hrun⟩ |
    ⟨tg, resp, _, _, _, hrun⟩ |
    ⟨tg, resp, s', _, _, _, _, _, _, hrun⟩ |
    ⟨tg, resp, s', _, _, _, _, _, _, hrun⟩
  · rw [getCodex_of_error hrun] at hm
    rcases mem_catchHandler_events hm with h' | h' | h' | h' <;> simp at h'
  · rw [getCodex_of_ok hrun] at hm
    simp at hm
  · rw [getCodex_of_error hrun] at hm
    rcases mem_catchHandler_events hm with h' | h' | h' | h' <;> simp at h'
  · rw [getCodex_of_error hrun] at hm
    rcases mem_catchHandler_events hm with h' | h' | h' | h' <;> simp at h'
  · rw [getCodex_of_error hrun] at hm
    rcases mem_catchHandler_events hm with h' | h' | h' | h' <;> simp at h'
  · rw [getCodex_of_ok hrun] at hm
    simp at hm
  · rw [getCodex_of_error hrun] at hm
    rcases mem_catchHandler_events hm with h' | h' | h' | h' <;> simp at h'
  · rw [getCodex_of_error hrun] at hm
    rcases mem_catchHandler_events hm with h' | h' | h' | h' <;> simp at h'
  · rw [getCodex_of_ok hrun] at h1 hm h2meta h2cache
    simp at h1 hm
    have h0 : env1.nowWrite ≠ 0 := by omega
    subst h1
    exact freshServe env2 (newMetaOf env1 tg resp) env1.nowWrite s' h2meta rfl h0
      hwin h2cache

/-- Shared catch-path lemma: the catch handler resolves whenever the cached
file is not unreadable and the bundled document is readable. -/
theorem catchHandler_resolves (env : Env) (st : RunState)
    (hc : st.cacheFile ≠ FileState.unreadable) (hb : env.bundled.isSome = true) :
    ∃ s, (catchHandler env st).1 = Except.ok s := by
  rcases hcs : st.cacheFile with _ | _ | s
  · obtain ⟨b, hb'⟩ := Option.isSome_iff_exists.mp hb
    exact ⟨b, by rw [catchHandler_bundled hcs hb']⟩
  · exact absurd hcs hc
  · exact ⟨s, by rw [catchHandler_content hcs]⟩

/-- Claim C1 (corrected, counterexample): with no cached artifact, the
network down, and the bundled document unreadable, the promise rejects —
the reads in the catch block are unguarded, so the operation is not total
under arbitrary local read failures. -/
theorem getCodexInstructions_rejects_without_fallbacks :
    (getCodexInstructions envNoFallbacks).1 = Except.error () := rfl

/-- Claim C1 (corrected): for every environment — arbitrary network
responses or failures, arbitrary metadata state, arbitrary write failures —
`getCodexInstructions()` resolves to some text, provided the cached artifact
file (when present) is readable and the bundled document is readable.  (The
original claim also allowed those two reads to fail; the catch block reads
them unguarded, so the promise then rejects.) -/
theorem getCodexInstructions_resolves (env : Env)
    (hc : env.cacheFile ≠ FileState.unreadable) (hb : env.bundled.isSome = true) :
    ∃ s, (getCodexInstructions env).1 = Except.ok s := by
  rcases runTry_cases env with
    ⟨_, hrun⟩ |
    ⟨_, s', _, hrun⟩ |
    ⟨_, hunr, _⟩ |
    ⟨_, _, _, hrun⟩ |
    ⟨tg, _, _, _, hrun⟩ |
    ⟨tg, resp, s', _, _, _, _, hrun⟩ |
    ⟨tg, resp, _, _, _, hrun⟩ |
    ⟨tg, resp, s', _, _, _, _, _, _, hrun⟩ |
    ⟨tg, resp, s', _, _, _, _, _, _, hrun⟩
  · rw [getCodex_of_error hrun]
    exact catchHandler_resolves env _ hc hb
  · exact ⟨s', by rw [getCodex_of_ok hrun]⟩
  · exact absurd hunr hc
  · rw [getCodex_of_error hrun]
    exact catchHandler_resolves env _ hc hb
  · rw [getCodex_of_error hrun]
    exact catchHandler_resolves env _ hc hb
  · exact ⟨s', by rw [getCodex_of_ok hrun]⟩
  · rw [getCodex_of_error hrun]
    exact catchHandler_resolves env _ hc hb
  · rw [getCodex_of_error hrun]
    exact catchHandler_resolves env _ (by simp) hb
  · exact ⟨s', by rw [getCodex_of_ok hrun]⟩

/-- Witness for `getCodexInstructions_resolves` at the baseline environment
(empty cache, network down, bundled document readable). -/
theorem getCodexInstructions_resolves_witness :
    ∃ s, (getCodexInstructions envBase).1 = Except.ok s :=
  getCodexInstructions_resolves envBase (by decide) rfl

/-- Claim C3 (confirmed): whenever resolving the latest version fails
(rejected fetch or non-success status), `getCodexInstructions()` returns
the cached artifact when the store holds content, else the bundled default
document, and in neither case rejects. -/
theorem versionResolutionFailure_fallback (env : Env)
    (hfail : env.release = none ∨ ∃ r, env.release = some r ∧ r.ok = false) :
    (∀ s, env.cacheFile = FileState.content s →
      (getCodexInstructions env).1 = Except.ok s) ∧
    (env.cacheFile = FileState.absent → ∀ b, env.bundled = some b →
      (getCodexInstructions env).1 = Except.ok b) := by
  have hrl0 : resolveLatest env = .error () := resolveLatest_error_of_fail hfail
  rcases runTry_cases env with
    ⟨_, hrun⟩ |
    ⟨_, s', hs', hrun⟩ |
    ⟨_, hunr, _⟩ |
    ⟨_, _, _, hrun⟩ |
    ⟨tg, _, hrl, _, _⟩ |
    ⟨tg, resp, s', _, hrl, _, _, _⟩ |
    ⟨tg, resp, _, hrl, _, _⟩ |
    ⟨tg, resp, s', _, hrl, _, _, _, _, _⟩ |
    ⟨tg, resp, s', _, hrl, _, _, _, _, _⟩
  · constructor
    · intro s hcs
      rw [getCodex_of_error hrun, catchHandler_content (show (⟨env.cacheFile,
        env.metaFile, []⟩ : RunState).cacheFile = FileState.content s from hcs)]
    · intro habs b hb'
      rw [getCodex_of_error hrun, catchHandler_bundled (show (⟨env.cacheFile,
        env.metaFile, []⟩ : RunState).cacheFile = FileState.absent from habs) hb']
  · constructor
    · intro s hcs
      have hss : s' = s := by
        have h2 := hs'.symm.trans hcs
        injection h2
      subst hss
      rw [getCodex_of_ok hrun]
    · intro habs
      simp [hs'] at habs
  · constructor
    · intro s hcs
      simp [hcs] at hunr
    · intro habs
      simp [habs] at hunr
  · constructor
    · intro s hcs
      rw [getCodex_of_error hrun, catchHandler_content (show (⟨env.cacheFile,
        env.metaFile, [Event.releaseCall]⟩ : RunState).cacheFile =
          FileState.content s from hcs)]
    · intro habs b hb'
      rw [getCodex_of_error hrun, catchHandler_bundled (show (⟨env.cacheFile,
        env.metaFile, [Event.releaseCall]⟩ : RunState).cacheFile =
          FileState.absent from habs) hb']
  all_goals simp [hrl0] at hrl

/-- Witness for `versionResolutionFailure_fallback`: stale cache `X` with
the network down is served as-is. -/
theorem versionResolutionFailure_fallback_witness :
    (getCodexInstructions envStaleNoNet).1 = Except.ok "X" :=
  (versionResolutionFailure_fallback envStaleNoNet (Or.inl rfl)).1 "X" rfl

/-- Witness for `roundTrip`: the successful fetch of `envTagChange`
persists content `Y`; re-running on the persisted state within the window
serves `Y` with no network events. -/
theorem roundTrip_witness :
    (getCodexInstructions envAfterTagChange).1 = Except.ok "Y" ∧
    (getCodexInstructions envAfterTagChange).2.events.filter Event.isNetwork = [] :=
  roundTrip envTagChange envAfterTagChange
    ⟨some "e2", some "v2", some 2000, codexInstructionsURL "v2"⟩ "Y"
    rfl (by decide) rfl rfl (by decide) (by decide)

/-- Routing lemma: a non-log event of a failed run's final trace already
occurred in the `try` body's trace. -/
theorem mem_run_events_of_error {env : Env} {st : RunState} {e : Event}
    (hrun : runTry env = (Except.error (), st))
    (he : e ∈ (getCodexInstructions env).2.events)
    (hnl1 : e ≠ Event.logFetchFailed) (hnl2 : e ≠ Event.logUsingCached)
    (hnl3 : e ≠ Event.logUsingBundled) : e ∈ st.events := by
  rw [getCodex_of_error hrun] at he
  rcases mem_catchHandler_events he with h | h | h | h
  · exact h
  · exact absurd h hnl1
  · exact absurd h hnl2
  · exact absurd h hnl3

/-- Inversion of a successful version resolution. -/
theorem resolveLatest_ok_inv {env : Env} {tg : String}
    (h : resolveLatest env = Except.ok tg) :
    ∃ r, env.release = some r ∧ r.ok = true ∧ r.tagName = some tg := by
  rcases hrel : env.release with _ | r
  · rw [show resolveLatest env = Except.error () from by
      unfold resolveLatest; rw [hrel]] at h
    simp at h
  · have h' : (if !r.ok then Except.error ()
        else match r.tagName with
          | none => Except.error ()
          | some t => (Except.ok t : Except Unit String)) = Except.ok tg := by
      rw [show (if !r.ok then Except.error ()
          else match r.tagName with
            | none => Except.error ()
            | some t => (Except.ok t : Except Unit String)) = resolveLatest env from by
        unfold resolveLatest; rw [hrel]]
      exact h
    cases hok : r.ok
    · rw [hok] at h'
      simp at h'
    · rcases htg : r.tagName with _ | t
      · rw [hok, htg] at h'
        simp at h'
      · rw [hok, htg] at h'
        simp at h'
        exact ⟨r, rfl, hok, by rw [htg, h']⟩

/-- Claim C4 (confirmed): whenever the resolved latest tag differs from the
cached `versionTag` (or no metadata parsed), every resource fetch of the run
is issued without an `If-None-Match` validator, even if a validator was
stored. -/
theorem tagChange_unconditionalFetch (env : Env) (r : RelResponse) (tg : String)
    (hr : env.release = some r) (htag : r.tagName = some tg)
    (hdiff : metaTagOf env ≠ some tg) :
    ∀ u h, Event.resourceCall u h ∈ (getCodexInstructions env).2.events →
      h = none := by
  have key : ∀ tg', resolveLatest env = Except.ok tg' → tg' = tg := by
    intro tg' hok
    obtain ⟨r', hr', _, htag'⟩ := resolveLatest_ok_inv hok
    rw [hr] at hr'
    injection hr' with hrr
    rw [← hrr] at htag'
    rw [htag] at htag'
    injection htag' with h2
    exact h2.symm
  have hnone : hdrOf env tg = none := by
    unfold hdrOf
    exact validatorSent_none hdiff
  intro u h he
  rcases runTry_cases env with
    ⟨_, hrun⟩ |
    ⟨_, s', _, hrun⟩ |
    ⟨_, _, hrun⟩ |
    ⟨_, _, _, hrun⟩ |
    ⟨tg', _, hrl, _, hrun⟩ |
    ⟨tg', resp, s', _, hrl, _, _, hrun⟩ |
    ⟨tg', resp, _, hrl, _, hrun⟩ |
    ⟨tg', resp, s', _, hrl, _, _, _, _, hrun⟩ |
    ⟨tg', resp, s', _, hrl, _, _, _, _, hrun⟩
  · have h' := mem_run_events_of_error hrun he (by simp) (by simp) (by simp)
    simp at h'
  · rw [getCodex_of_ok hrun] at he
    simp at he
  · have h' := mem_run_events_of_error hrun he (by simp) (by simp) (by simp)
    simp at h'
  · have h' := mem_run_events_of_error hrun he (by simp) (by simp) (by simp)
    simp at h'
  · have h' := mem_run_events_of_error hrun he (by simp) (by simp) (by simp)
    simp at h'
    rw [h'.2, key tg' hrl]
    exact hnone
  · rw [getCodex_of_ok hrun] at he
    simp at he
    rw [he.2, key tg' hrl]
    exact hnone
  · have h' := mem_run_events_of_error hrun he (by simp) (by simp) (by simp)
    simp at h'
    rw [h'.2, key tg' hrl]
    exact hnone
  · have h' := mem_run_events_of_error hrun he (by simp) (by simp) (by simp)
    simp at h'
    rw [h'.2, key tg' hrl]
    exact hnone
  · rw [getCodex_of_ok hrun] at he
    simp at he
    rw [he.2, key tg' hrl]
    exact hnone

/-- Witness for `tagChange_unconditionalFetch`: with cached tag `v1`, a
stored validator `e1`, and resolved tag `v2`, the conditional request in the
trace indeed carries no validator. -/
theorem tagChange_unconditionalFetch_witness :
    Event.resourceCall (codexInstructionsURL "v2") none ∈
      (getCodexInstructions envTagChange).2.events ∧
    (∀ u h, Event.resourceCall u h ∈ (getCodexInstructions envTagChange).2.events →
      h = none) :=
  ⟨by decide, tagChange_unconditionalFetch envTagChange ⟨200, some "v2"⟩ "v2"
    rfl rfl (by decide)⟩

/-- Claim C5 (confirmed): when every resource response is a 304, the
persisted metadata — `lastCheckedTime` included — is left completely
unchanged; and every metadata record a run persists (which happens exactly
in the successful 200-class branch) carries `lastCheckedTime` equal to the
write-time clock reading. -/
theorem notModified_preserves_metadata (env : Env) :
    ((∀ h r, env.fetchResp h = some r → r.status = 304) →
      (getCodexInstructions env).2.metaFile = env.metaFile) ∧
    (∀ m, Event.wroteMeta m ∈ (getCodexInstructions env).2.events →
      m.lastChecked = some env.nowWrite) := by
  constructor
  · intro h304
    rcases runTry_cases env with
      ⟨_, hrun⟩ |
      ⟨_, s', _, hrun⟩ |
      ⟨_, _, hrun⟩ |
      ⟨_, _, _, hrun⟩ |
      ⟨tg, _, _, _, hrun⟩ |
      ⟨tg, resp, s', _, _, _, _, hrun⟩ |
      ⟨tg, resp, _, _, _, hrun⟩ |
      ⟨tg, resp, s', _, _, hf, hok, _, _, hrun⟩ |
      ⟨tg, resp, s', _, _, hf, hok, _, _, hrun⟩
    · rw [getCodex_of_error hrun, catchHandler_metaFile]
    · rw [getCodex_of_ok hrun]
    · rw [getCodex_of_error hrun, catchHandler_metaFile]
    · rw [getCodex_of_error hrun, catchHandler_metaFile]
    · rw [getCodex_of_error hrun, catchHandler_metaFile]
    · rw [getCodex_of_ok hrun]
    · rw [getCodex_of_error hrun, catchHandler_metaFile]
    all_goals
      rw [FetchResponse.ok_false_of_304 (h304 _ resp hf)] at hok
      simp at hok
  · intro m hm
    rcases runTry_cases env with
      ⟨_, hrun⟩ |
      ⟨_, s', _, hrun⟩ |
      ⟨_, _, hrun⟩ |
      ⟨_, _, _, hrun⟩ |
      ⟨tg, _, _, _, hrun⟩ |
      ⟨tg, resp, s', _, _, _, _, hrun⟩ |
      ⟨tg, resp, _, _, _, hrun⟩ |
      ⟨tg, resp, s', _, _, _, _, _, _, hrun⟩ |
      ⟨tg, resp, s', _, _, _, _, _, _, hrun⟩
    · have h' := mem_run_events_of_error hrun hm (by simp) (by simp) (by simp)
      simp at h'
    · rw [getCodex_of_ok hrun] at hm
      simp at hm
    · have h' := mem_run_events_of_error hrun hm (by simp) (by simp) (by simp)
      simp at h'
    · have h' := mem_run_events_of_error hrun hm (by simp) (by simp) (by simp)
      simp at h'
    · have h' := mem_run_events_of_error hrun hm (by simp) (by simp) (by simp)
      simp at h'
    · rw [getCodex_of_ok hrun] at hm
      simp at hm
    · have h' := mem_run_events_of_error hrun hm (by simp) (by simp) (by simp)
      simp at h'
    · have h' := mem_run_events_of_error hrun hm (by simp) (by simp) (by simp)
      simp at h'
    · rw [getCodex_of_ok hrun] at hm
      simp at hm
      rw [hm]
      rfl

/-- Witness for `notModified_preserves_metadata`: a 304 answer leaves the
stale metadata of `envNotModified` untouched, and the record persisted by
the 200 fetch of `envTagChange` carries the write-time clock (2000 ms). -/
theorem notModified_preserves_metadata_witness :
    (getCodexInstructions envNotModified).2.metaFile = envNotModified.metaFile ∧
    (⟨some "e2", some "v2", some 2000,
        codexInstructionsURL "v2"⟩ : CacheMetadata).lastChecked =
      some envTagChange.nowWrite :=
  ⟨(notModified_preserves_metadata envNotModified).1
      (fun h r hr => by rw [← Option.some.inj hr]),
   (notModified_preserves_metadata envTagChange).2
      ⟨some "e2", some "v2", some 2000, codexInstructionsURL "v2"⟩ (by decide)⟩

/-- Claim C6 (confirmed): a metadata write never occurs without an artifact
write in the same run; artifact writes occur only after a 200-class
response; and unless the metadata write itself fails, an artifact write is
always accompanied by the metadata write of the pair. -/
theorem pairedWrites (env : Env) :
    (∀ m, Event.wroteMeta m ∈ (getCodexInstructions env).2.events →
      ∃ s, Event.wroteCache s ∈ (getCodexInstructions env).2.events) ∧
    (∀ s, Event.wroteCache s ∈ (getCodexInstructions env).2.events →
      ∃ h r, env.fetchResp h = some r ∧ r.ok = true) ∧
    (env.writeMetaOk = true →
      ∀ s, Event.wroteCache s ∈ (getCodexInstructions env).2.events →
        ∃ m, Event.wroteMeta m ∈ (getCodexInstructions env).2.events) := by
  rcases runTry_cases env with
    ⟨_, hrun⟩ |
    ⟨_, s', _, hrun⟩ |
    ⟨_, _, hrun⟩ |
    ⟨_, _, _, hrun⟩ |
    ⟨tg, _, _, _, hrun⟩ |
    ⟨tg, resp, s', _, _, _, _, hrun⟩ |
    ⟨tg, resp, _, _, _, hrun⟩ |
    ⟨tg, resp, s', _, _, hf, hok, _, hw, hrun⟩ |
    ⟨tg, resp, s', _, _, hf, hok, _, hw, hrun⟩
  · refine ⟨fun m hm => ?_, fun s hs => ?_, fun _ s hs => ?_⟩
    · have h' := mem_run_events_of_error hrun hm (by simp) (by simp) (by simp)
      simp at h'
    · have h' := mem_run_events_of_error hrun hs (by simp) (by simp) (by simp)
      simp at h'
    · have h' := mem_run_events_of_error hrun hs (by simp) (by simp) (by simp)
      simp at h'
  · refine ⟨fun m hm => ?_, fun s hs => ?_, fun _ s hs => ?_⟩
    · rw [getCodex_of_ok hrun] at hm
      simp at hm
    · rw [getCodex_of_ok hrun] at hs
      simp at hs
    · rw [getCodex_of_ok hrun] at hs
      simp at hs
  · refine ⟨fun m hm => ?_, fun s hs => ?_, fun _ s hs => ?_⟩
    · have h' := mem_run_events_of_error hrun hm (by simp) (by simp) (by simp)
      simp at h'
    · have h' := mem_run_events_of_error hrun hs (by simp) (by simp) (by simp)
      simp at h'
    · have h' := mem_run_events_of_error hrun hs (by simp) (by simp) (by simp)
      simp at h'
  · refine ⟨fun m hm => ?_, fun s hs => ?_, fun _ s hs => ?_⟩
    · have h' := mem_run_events_of_error hrun hm (by simp) (by simp) (by simp)
      simp at h'
    · have h' := mem_run_events_of_error hrun hs (by simp) (by simp) (by simp)
      simp at h'
    · have h' := mem_run_events_of_error hrun hs (by simp) (by simp) (by simp)
      simp at h'
  · refine ⟨fun m hm => ?_, fun s hs => ?_, fun _ s hs => ?_⟩
    · have h' := mem_run_events_of_error hrun hm (by simp) (by simp) (by simp)
      simp at h'
    · have h' := mem_run_events_of_error hrun hs (by simp) (by simp) (by simp)
      simp at h'
    · have h' := mem_run_events_of_error hrun hs (by simp) (by simp) (by simp)
      simp at h'
  · refine ⟨fun m hm => ?_, fun s hs => ?_, fun _ s hs => ?_⟩
    · rw [getCodex_of_ok hrun] at hm
      simp at hm
    · rw [getCodex_of_ok hrun] at hs
      simp at hs
    · rw [getCodex_of_ok hrun] at hs
      simp at hs
  · refine ⟨fun m hm => ?_, fun s hs => ?_, fun _ s hs => ?_⟩
    · have h' := mem_run_events_of_error hrun hm (by simp) (by simp) (by simp)
      simp at h'
    · have h' := mem_run_events_of_error hrun hs (by simp) (by simp) (by simp)
      simp at h'
    · have h' := mem_run_events_of_error hrun hs (by simp) (by simp) (by simp)
      simp at h'
  · refine ⟨fun m hm => ?_, fun s hs => ?_, fun hmetaOk s hs => ?_⟩
    · have h' := mem_run_events_of_error hrun hm (by simp) (by simp) (by simp)
      simp at h'
    · exact ⟨hdrOf env tg, resp, hf, hok⟩
    · rw [hmetaOk] at hw
      simp at hw
  · refine ⟨fun m hm => ?_, fun s hs => ?_, fun _ s hs => ?_⟩
    · refine ⟨s', ?_⟩
      rw [getCodex_of_ok hrun]
      simp
    · exact ⟨hdrOf env tg, resp, hf, hok⟩
    · refine ⟨newMetaOf env tg resp, ?_⟩
      rw [getCodex_of_ok hrun]
      simp

/-- Witness for `pairedWrites` at the successful-fetch environment: the
trace holds both writes of the pair, and the fetch that justified them. -/
theorem pairedWrites_witness :
    (∃ s, Event.wroteCache s ∈ (getCodexInstructions envTagChange).2.events) ∧
    (∃ h r, envTagChange.fetchResp h = some r ∧ r.ok = true) ∧
    (∃ m, Event.wroteMeta m ∈ (getCodexInstructions envTagChange).2.events) :=
  ⟨(pairedWrites envTagChange).1 (newMetaOf envTagChange "v2" ⟨200, some "Y", some "e2"⟩)
      (by decide),
   (pairedWrites envTagChange).2.1 "Y" (by decide),
   (pairedWrites envTagChange).2.2 rfl "Y" (by decide)⟩

/-- Claim C7 (corrected, counterexample): with an unparseable metadata file,
a cached artifact `X`, and the network fully available (it would resolve
`v2` and serve new content `Y`), the run performs zero network calls and
serves the stale artifact — it does not continue the normal flow of version
resolution and network fetch. -/
theorem metaReadFailure_skipsNetwork :
    envBadMeta.release = some ⟨200, some "v2"⟩ ∧
    (getCodexInstructions envBadMeta).2.events.filter Event.isNetwork = [] ∧
    (getCodexInstructions envBadMeta).1 = Except.ok "X" :=
  ⟨rfl, rfl, rfl⟩

/-- Claim C7 (corrected): if reading or parsing the persisted metadata
fails, the retrieval does not reject; it short-circuits to the fallback
chain — serving the stale artifact when the store holds content, else the
bundled default — performing no version resolution and no network fetch.
(The original claim said the flow continues with version resolution and a
network fetch; the exception instead jumps to the catch block.) -/
theorem metaReadFailure_fallback (env : Env)
    (hm : env.metaFile = MetaFileState.unreadable) :
    (getCodexInstructions env).2.events.filter Event.isNetwork = [] ∧
    (∀ s, env.cacheFile = FileState.content s →
      (getCodexInstructions env).1 = Except.ok s) ∧
    (env.cacheFile = FileState.absent → ∀ b, env.bundled = some b →
      (getCodexInstructions env).1 = Except.ok b) := by
  rcases runTry_shape env with ⟨_, hrun⟩ | ⟨hne, _⟩
  · refine ⟨?_, ?_, ?_⟩
    · rw [getCodex_of_error hrun, catchHandler_filter env _ Event.isNetwork rfl rfl rfl]
      rfl
    · intro s hcs
      rw [getCodex_of_error hrun, catchHandler_content (show (⟨env.cacheFile,
        env.metaFile, []⟩ : RunState).cacheFile = FileState.content s from hcs)]
    · intro habs b hb
      rw [getCodex_of_error hrun, catchHandler_bundled (show (⟨env.cacheFile,
        env.metaFile, []⟩ : RunState).cacheFile = FileState.absent from habs) hb]
  · exact absurd hm hne

/-- Witness for `metaReadFailure_fallback`: unreadable metadata and no
cached artifact fall back to the bundled document with no network events. -/
theorem metaReadFailure_fallback_witness :
    (getCodexInstructions envBadMetaNoCache).2.events.filter Event.isNetwork = [] ∧
    (getCodexInstructions envBadMetaNoCache).1 = Except.ok "B" :=
  ⟨(metaReadFailure_fallback envBadMetaNoCache rfl).1,
   (metaReadFailure_fallback envBadMetaNoCache rfl).2.2 rfl "B" rfl⟩

/-- Claim C8 (corrected, counterexample): upstream answers 304 while the
artifact store is empty; the run's full trace shows a single resource fetch
(the original conditional one) followed directly by the fallback chain — no
second, full fetch attempt is made — and the bundled document is served. -/
theorem notModifiedEmptyCache_noRefetch :
    (getCodexInstructions envNotModifiedEmpty).2.events =
      [Event.releaseCall,
       Event.resourceCall (codexInstructionsURL "v2") (some "e1"),
       Event.logFetchFailed, Event.logUsingBundled] ∧
    (getCodexInstructions envNotModifiedEmpty).1 = Except.ok "B" :=
  ⟨rfl, rfl⟩

/-- Claim C8 (corrected): if the upstream answers "not modified" while the
artifact store holds no content, the run proceeds as if the fetch had
failed, falling through to the fallback chain — serving the bundled
document rather than empty content — and issues at most the one resource
fetch already made (no full re-fetch attempt). -/
theorem notModifiedEmptyCache_fallback (env : Env) (b : String)
    (h304 : ∀ h r, env.fetchResp h = some r → r.status = 304)
    (hc : env.cacheFile = FileState.absent) (hb : env.bundled = some b) :
    (getCodexInstructions env).1 = Except.ok b ∧
    ((getCodexInstructions env).2.events.filter Event.isResource).length ≤ 1 := by
  rcases runTry_cases env with
    ⟨_, hrun⟩ |
    ⟨_, s', hs', _⟩ |
    ⟨_, hunr, _⟩ |
    ⟨_, _, _, hrun⟩ |
    ⟨tg, _, _, _, hrun⟩ |
    ⟨tg, resp, s', _, _, _, hs', _⟩ |
    ⟨tg, resp, _, _, hf, hrun⟩ |
    ⟨tg, resp, s', _, _, hf, hok, _, _, _⟩ |
    ⟨tg, resp, s', _, _, hf, hok, _, _, _⟩
  · constructor
    · rw [getCodex_of_error hrun, catchHandler_bundled (show (⟨env.cacheFile,
        env.metaFile, []⟩ : RunState).cacheFile = FileState.absent from hc) hb]
    · rw [getCodex_of_error hrun, catchHandler_filter env _ Event.isResource rfl rfl rfl]
      simp
  · simp [hc] at hs'
  · simp [hc] at hunr
  · constructor
    · rw [getCodex_of_error hrun, catchHandler_bundled (show (⟨env.cacheFile,
        env.metaFile, [Event.releaseCall]⟩ : RunState).cacheFile =
          FileState.absent from hc) hb]
    · rw [getCodex_of_error hrun, catchHandler_filter env _ Event.isResource rfl rfl rfl]
      simp [Event.isResource]
  · constructor
    · rw [getCodex_of_error hrun, catchHandler_bundled (show (⟨env.cacheFile,
        env.metaFile, [Event.releaseCall, Event.resourceCall (codexInstructionsURL tg)
          (hdrOf env tg)]⟩ : RunState).cacheFile = FileState.absent from hc) hb]
    · rw [getCodex_of_error hrun, catchHandler_filter env _ Event.isResource rfl rfl rfl]
      simp [Event.isResource]
  · simp [hc] at hs'
  · constructor
    · rw [getCodex_of_error hrun, catchHandler_bundled (show (⟨env.cacheFile,
        env.metaFile, [Event.releaseCall, Event.resourceCall (codexInstructionsURL tg)
          (hdrOf env tg)]⟩ : RunState).cacheFile = FileState.absent from hc) hb]
    · rw [getCodex_of_error hrun, catchHandler_filter env _ Event.isResource rfl rfl rfl]
      simp [Event.isResource]
  · rw [FetchResponse.ok_false_of_304 (h304 _ resp hf)] at hok
    simp at hok
  · rw [FetchResponse.ok_false_of_304 (h304 _ resp hf)] at hok
    simp at hok

/-- Witness for `notModifiedEmptyCache_fallback` at the concrete
304-with-empty-store environment. -/
theorem notModifiedEmptyCache_fallback_witness :
    (getCodexInstructions envNotModifiedEmpty).1 = Except.ok "B" ∧
    ((getCodexInstructions envNotModifiedEmpty).2.events.filter
      Event.isResource).length ≤ 1 :=
  notModifiedEmptyCache_fallback envNotModifiedEmpty "B"
    (fun h r hr => by rw [← Option.some.inj hr]) rfl rfl

end Codex
